import Mathlib

/-!
# Seat locking core of `Exp4_Q3.js` (concurrent ticket booking)

A shallow embedding of the in-memory seat store and of the functions
`releaseLockInternal`, `tryLockSeat`, `confirmSeat`, the `/unlock` handler and
the timer callback installed by `tryLockSeat`.

Modelling conventions.

* The JavaScript `Map` `seats` is a finite map from seat ids to seat objects;
  it is embedded as a function `String → Option Seat`.  Seat objects are
  mutated in place through the reference obtained with `seats.get`, so every
  field assignment is an update of the map entry under that id.
* `Date.now()` is an input: each call site reads a natural number of
  milliseconds.  `tryLockSeat` reads the clock at two places (lines 64 and 74),
  so it takes two readings.
* `setTimeout` / `clearTimeout` act on the queue of pending timers of the
  runtime, which is part of the state (`World.timers`).  A `Timeout` handle is
  an object, hence always truthy; it is represented by a fresh number.
* `new Date(ms).toISOString()` in response payloads is represented by the
  timestamp `ms` it renders.
* A run of the timer callback is a step of its own (`Step.expire`), allowed for any seat
  at any clock reading, whether or not a timer is pending: this covers every firing the
  runtime can schedule, late and duplicate ones included.
* Truthiness follows JavaScript: `null`, `undefined`, `0` and `""` are falsy.
-/

namespace TicketBooking

/-! ## Data model -/

/-- Line 13: `const LOCK_DURATION_MS = 60_000`. -/
def LOCK_DURATION_MS : Nat := 60000

/-- Line 18: `const TOTAL_SEATS = 20`. -/
def TOTAL_SEATS : Nat := 20

/-- The three values of `seat.state` (line 16). -/
inductive SeatState where
  | available
  | locked
  | booked
  deriving DecidableEq, Repr

/-- The seat object of line 16/20:
`{ state, owner: userId|null, expiresAt: timestamp|null, _timer: Timeout|null }`. -/
structure Seat where
  state : SeatState
  owner : Option String
  expiresAt : Option Nat
  _timer : Option Nat
  deriving DecidableEq, Repr

/-- A pending timer of the runtime: its handle, the `seatId` captured by the
callback closure (line 83) and the delay it was scheduled with. -/
structure Timer where
  id : Nat
  seatId : String
  delay : Nat
  deriving DecidableEq, Repr

/-- The mutable state: the `seats` map, the pending timers and the next fresh handle. -/
structure World where
  seats : String → Option Seat
  timers : List Timer
  nextTimer : Nat

/-- JavaScript truthiness of a `string | null` value. -/
def truthyStr : Option String → Bool
  | none => false
  | some s => s != ""

/-- JavaScript truthiness of a `number | null` value. -/
def truthyNum : Option Nat → Bool
  | none => false
  | some n => n != 0

/-- In-place mutation of the seat object stored under `seatId`. -/
def modifySeat (w : World) (seatId : String) (f : Seat → Seat) : World :=
  { w with seats := fun k => if k = seatId then (w.seats k).map f else w.seats k }

/-- The runtime's `clearTimeout(handle)`: the pending timer is dropped. -/
def clearTimeout (w : World) (h : Nat) : World :=
  { w with timers := w.timers.filter (fun t => t.id != h) }

/-- The runtime's `setTimeout(callback, delay)` for the callback closing over `seatId`:
returns the fresh handle. -/
def setTimeout (w : World) (seatId : String) (delay : Nat) : Nat × World :=
  (w.nextTimer,
   { w with timers := w.timers ++ [{ id := w.nextTimer, seatId := seatId, delay := delay }],
            nextTimer := w.nextTimer + 1 })

/-- Lines 19-21: the ids `String(1)`, ..., `String(TOTAL_SEATS)`. -/
def seatIds : List String :=
  (List.range TOTAL_SEATS).map (fun i => toString (i + 1))

/-- Line 20: `{ state: 'available', owner: null, expiresAt: null, _timer: null }`. -/
def initialSeat : Seat :=
  { state := .available, owner := none, expiresAt := none, _timer := none }

/-- Lines 17-21: the store at process start. -/
def initialWorld : World :=
  { seats := fun k => if k ∈ seatIds then some initialSeat else none,
    timers := [],
    nextTimer := 0 }

/-! ## Results -/

/-- The `seat` payload of a successful result (lines 96 and 132). -/
structure SeatInfo where
  id : String
  owner : String
  expiresAt : Option Nat
  deriving DecidableEq, Repr

/-- The object returned by `tryLockSeat` and `confirmSeat`. -/
structure Result where
  success : Bool
  code : Nat
  message : String
  owner : Option String := none
  expiresAt : Option Nat := none
  seat : Option SeatInfo := none
  deriving DecidableEq, Repr

/-- The HTTP response of the `/unlock` handler. -/
structure Response where
  status : Nat
  message : String
  deriving DecidableEq, Repr

/-! ## Operations -/

/-- Lines 37-49. -/
def releaseLockInternal (w : World) (seatId : String) : World :=
  match w.seats seatId with
  | none => w
  | some seat =>
    let w1 :=
      match seat._timer with
      | some h => modifySeat (clearTimeout w h) seatId (fun s => { s with _timer := none })
      | none => w
    if seat.state = .locked then
      modifySeat w1 seatId
        (fun s => { s with state := .available, owner := none, expiresAt := none })
    else w1

/-- Lines 83-94: the body of the timer callback closing over `seatId`, run when the
clock reads `now`. -/
def expiryCallback (w : World) (seatId : String) (now : Nat) : World :=
  match w.seats seatId with
  | none => w
  | some s =>
    if s.state = .locked ∧ truthyNum s.expiresAt = true ∧ (∀ e ∈ s.expiresAt, e ≤ now) then
      modifySeat w seatId
        (fun s => { s with _timer := none, state := .available, owner := none, expiresAt := none })
    else w

/-- Lines 52-97.  `now` is the clock read at line 64, `now2` the one at line 74. -/
def tryLockSeat (w : World) (seatId userId : String) (now now2 : Nat) : Result × World :=
  match w.seats seatId with
  | none => ({ success := false, code := 404, message := "Seat not found" }, w)
  | some seat =>
    if seat.state = .booked then
      ({ success := false, code := 409, message := "Seat already booked" }, w)
    else if seat.state = .locked ∧ truthyNum seat.expiresAt = true
        ∧ (∀ e ∈ seat.expiresAt, e > now) then
      ({ success := false, code := 409, message := "Seat is currently locked by another user",
         owner := seat.owner, expiresAt := seat.expiresAt }, w)
    else
      let w1 := if seat.state = .locked then releaseLockInternal w seatId else w
      let expiresAt := now2 + LOCK_DURATION_MS
      let w2 := modifySeat w1 seatId
        (fun s => { s with state := .locked, owner := some userId, expiresAt := some expiresAt })
      let w3 :=
        match (w2.seats seatId).bind (fun s => s._timer) with
        | some h => clearTimeout w2 h
        | none => w2
      let (h, w4) := setTimeout w3 seatId (LOCK_DURATION_MS + 10)
      let w5 := modifySeat w4 seatId (fun s => { s with _timer := some h })
      ({ success := true, code := 200, message := "Seat locked",
         seat := some { id := seatId, owner := userId, expiresAt := some expiresAt } }, w5)

/-- Lines 100-133.  `now` is the clock read at line 118. -/
def confirmSeat (w : World) (seatId userId : String) (now : Nat) : Result × World :=
  match w.seats seatId with
  | none => ({ success := false, code := 404, message := "Seat not found" }, w)
  | some seat =>
    if seat.state = .booked then
      ({ success := false, code := 409, message := "Seat already booked" }, w)
    else if seat.state ≠ .locked then
      ({ success := false, code := 400,
         message := "Seat is not locked. You must lock before confirming." }, w)
    else if seat.owner ≠ some userId then
      ({ success := false, code := 403, message := "You do not own the lock for this seat" }, w)
    else if truthyNum seat.expiresAt = true ∧ (∀ e ∈ seat.expiresAt, e ≤ now) then
      ({ success := false, code := 410, message := "Lock has expired" },
       releaseLockInternal w seatId)
    else
      let w1 :=
        match seat._timer with
        | some h => modifySeat (clearTimeout w h) seatId (fun s => { s with _timer := none })
        | none => w
      let w2 := modifySeat w1 seatId (fun s => { s with state := .booked, expiresAt := none })
      ({ success := true, code := 200, message := "Seat successfully booked",
         seat := some { id := seatId, owner := userId, expiresAt := none } }, w2)

/-- Lines 161-174, the `/unlock` handler.  `seatId` and `userId` are the two fields of the
request body, `none` when the field is absent (or is not a string, for `userId`);
a present `seatId` is the string `String(seatId)`. -/
def unlock (w : World) (seatId userId : Option String) : Response × World :=
  if truthyStr seatId = false then
    ({ status := 400, message := "seatId is required" }, w)
  else
    let id := seatId.getD ""
    match w.seats id with
    | none => ({ status := 404, message := "Seat not found" }, w)
    | some seat =>
      if truthyStr seat.owner = true ∧ seat.owner ≠ userId ∧ userId ≠ some "admin" then
        ({ status := 403, message := "Only owner or admin can unlock this seat" }, w)
      else
        ({ status := 200, message := "Lock released (if it existed) for seat " ++ id },
         releaseLockInternal w id)

/-- Lock requests for one seat served one after the other, as the single-threaded server
serves the parallel requests of `runConcurrentTest` (lines 193-206): each request is a
user id with the two clock readings of its `tryLockSeat` call. -/
def lockAll (w : World) (seatId : String) : List (String × Nat × Nat) → List Result × World
  | [] => ([], w)
  | (userId, now, now2) :: rest =>
    let r := tryLockSeat w seatId userId now now2
    let rs := lockAll r.2 seatId rest
    (r.1 :: rs.1, rs.2)

/-- One step of the system: a call of one of the three operations with its arguments and
clock readings, or a run of the timer callback of seat `seatId` when the clock reads `now`. -/
inductive Step where
  | lock (seatId userId : String) (now now2 : Nat)
  | confirm (seatId userId : String) (now : Nat)
  | unlock (seatId userId : Option String)
  | expire (seatId : String) (now : Nat)

/-- The store after a step. -/
def step (w : World) : Step → World
  | .lock seatId userId now now2 => (tryLockSeat w seatId userId now now2).2
  | .confirm seatId userId now => (confirmSeat w seatId userId now).2
  | .unlock seatId userId => (unlock w seatId userId).2
  | .expire seatId now => expiryCallback w seatId now

/-- The stores reachable from the initial one by any sequence of steps. -/
inductive Reachable : World → Prop where
  | init : Reachable initialWorld
  | next (w : World) (st : Step) : Reachable w → Reachable (step w st)

/-- The store after alice locks seat `"1"` at 1000 and confirms it at 2000. -/
def aliceBookedWorld : World :=
  step (step initialWorld (.lock "1" "alice" 1000 1000)) (.confirm "1" "alice" 2000)

/-- The store after `tryLockSeat("1", "alice")` at clock reading 1000 on the initial store. -/
def aliceLockedWorld : World :=
  (tryLockSeat initialWorld "1" "alice" 1000 1000).2

/-- The store after `tryLockSeat("1", "")` at clock reading 1000 on the initial store:
seat `"1"` is Locked and its owner is the empty string. -/
def emptyOwnerWorld : World :=
  (tryLockSeat initialWorld "1" "" 1000 1000).2

/-! ## Auxiliary definitions -/

/-- The seat object after `releaseLockInternal` has run on it. -/
def releasedSeat (s : Seat) : Seat :=
  if s.state = .locked then
    { state := .available, owner := none, expiresAt := none, _timer := none }
  else { s with _timer := none }

/-- The guard of line 168 on a seat's owner and the caller. -/
def unlockForbidden (owner userId : Option String) : Prop :=
  truthyStr owner = true ∧ owner ≠ userId ∧ userId ≠ some "admin"

/-- The two relations of the data model between a seat's state, owner and deadline. -/
def SeatInv (s : Seat) : Prop :=
  (s.owner ≠ none ↔ (s.state = .locked ∨ s.state = .booked)) ∧
  (s.expiresAt ≠ none ↔ s.state = .locked)

/-! ## Basic facts about the store -/

@[simp] theorem seats_modifySeat (w : World) (seatId : String) (f : Seat → Seat) (k : String) :
    (modifySeat w seatId f).seats k = if k = seatId then (w.seats k).map f else w.seats k := rfl

@[simp] theorem seats_clearTimeout (w : World) (h : Nat) :
    (clearTimeout w h).seats = w.seats := rfl

@[simp] theorem seats_setTimeout (w : World) (seatId : String) (d : Nat) :
    (setTimeout w seatId d).2.seats = w.seats := rfl

theorem seats_releaseLockInternal (w : World) (seatId k : String) :
    (releaseLockInternal w seatId).seats k =
      if k = seatId then (w.seats k).map releasedSeat else w.seats k := by
  unfold releaseLockInternal
  by_cases hk : k = seatId
  · subst hk
    cases hs : w.seats k with
    | none => simp [hs]
    | some s =>
      obtain ⟨st, ow, ex, tm⟩ := s
      cases tm <;> by_cases hl : st = .locked <;> simp [hs, hl, releasedSeat]
  · cases hs : w.seats seatId with
    | none => simp [hk]
    | some s =>
      obtain ⟨st, ow, ex, tm⟩ := s
      cases tm <;> by_cases hl : st = .locked <;> simp [hk, hl]

@[simp] theorem nextTimer_modifySeat (w : World) (seatId : String) (f : Seat → Seat) :
    (modifySeat w seatId f).nextTimer = w.nextTimer := rfl

@[simp] theorem nextTimer_clearTimeout (w : World) (h : Nat) :
    (clearTimeout w h).nextTimer = w.nextTimer := rfl

@[simp] theorem nextTimer_releaseLockInternal (w : World) (seatId : String) :
    (releaseLockInternal w seatId).nextTimer = w.nextTimer := by
  unfold releaseLockInternal
  cases w.seats seatId with
  | none => rfl
  | some s =>
    obtain ⟨st, ow, ex, tm⟩ := s
    cases tm <;> by_cases hl : st = .locked <;> simp [hl]

/-- The condition of line 65, `seat.expiresAt && seat.expiresAt > now`, on a deadline. -/
theorem held_iff (ex : Option Nat) (now : Nat) :
    (truthyNum ex = true ∧ ∀ e ∈ ex, e > now) ↔ ∃ e, ex = some e ∧ e > now := by
  cases ex with
  | none => simp [truthyNum]
  | some e =>
    simp only [truthyNum, Option.mem_def, Option.some.injEq, forall_eq', bne_iff_ne, ne_eq,
      exists_eq_left']
    omega

/-- The condition of lines 87 and 118, `expiresAt && expiresAt <= Date.now()`. -/
theorem due_iff (ex : Option Nat) (now : Nat) :
    (truthyNum ex = true ∧ ∀ e ∈ ex, e ≤ now) ↔ ∃ e, ex = some e ∧ e ≠ 0 ∧ e ≤ now := by
  cases ex with
  | none => simp [truthyNum]
  | some e => simp [truthyNum]

theorem tryLockSeat_missing (w : World) (seatId userId : String) (now now2 : Nat)
    (h : w.seats seatId = none) :
    tryLockSeat w seatId userId now now2 =
      ({ success := false, code := 404, message := "Seat not found" }, w) := by
  simp [tryLockSeat, h]

theorem tryLockSeat_booked (w : World) (seatId userId : String) (now now2 : Nat) (s : Seat)
    (h : w.seats seatId = some s) (hb : s.state = .booked) :
    tryLockSeat w seatId userId now now2 =
      ({ success := false, code := 409, message := "Seat already booked" }, w) := by
  simp [tryLockSeat, h, hb]

theorem tryLockSeat_held (w : World) (seatId userId : String) (now now2 : Nat) (s : Seat)
    (e : Nat) (h : w.seats seatId = some s) (hl : s.state = .locked)
    (he : s.expiresAt = some e) (hlt : now < e) :
    tryLockSeat w seatId userId now now2 =
      ({ success := false, code := 409, message := "Seat is currently locked by another user",
         owner := s.owner, expiresAt := some e }, w) := by
  have hc : truthyNum s.expiresAt = true ∧ ∀ x ∈ s.expiresAt, x > now :=
    (held_iff _ _).2 ⟨e, he, hlt⟩
  simp only [tryLockSeat, h, hl]
  rw [if_neg (by decide), if_pos ⟨trivial, hc⟩, he]

/-- The successful path of `tryLockSeat` (lines 73-96): result and store. -/
theorem tryLockSeat_free (w : World) (seatId userId : String) (now now2 : Nat) (s : Seat)
    (h : w.seats seatId = some s) (hb : s.state ≠ .booked)
    (hf : s.state = .locked → ∀ e, s.expiresAt = some e → e ≤ now) :
    (tryLockSeat w seatId userId now now2).1 =
        { success := true, code := 200, message := "Seat locked",
          seat := some { id := seatId, owner := userId,
                         expiresAt := some (now2 + LOCK_DURATION_MS) } } ∧
    ∀ k, (tryLockSeat w seatId userId now now2).2.seats k =
        if k = seatId then
          some { state := .locked, owner := some userId,
                 expiresAt := some (now2 + LOCK_DURATION_MS), _timer := some w.nextTimer }
        else w.seats k := by
  have hc : ¬ (s.state = .locked ∧ truthyNum s.expiresAt = true ∧ ∀ x ∈ s.expiresAt, x > now) := by
    rintro ⟨hl, hh⟩
    obtain ⟨e, he, hlt⟩ := (held_iff _ _).1 hh
    have := hf hl e he
    omega
  simp only [tryLockSeat, h]
  rw [if_neg hb, if_neg hc]
  refine ⟨rfl, fun k => ?_⟩
  obtain ⟨st, ow, ex, tm⟩ := s
  by_cases hk : k = seatId
  · subst hk
    by_cases hl : st = .locked
    · cases tm <;>
        simp [hl, h, seats_releaseLockInternal, releasedSeat, setTimeout, clearTimeout, modifySeat]
    · cases tm <;> simp [hl, h, setTimeout, clearTimeout, modifySeat]
  · by_cases hl : st = .locked
    · cases tm <;>
        simp [hl, h, hk, seats_releaseLockInternal, releasedSeat, setTimeout, clearTimeout,
          modifySeat]
    · cases tm <;> simp [hl, h, hk, setTimeout, clearTimeout, modifySeat]

/-- While a seat is locked with a deadline after every request's clock reading, every lock
request on it is refused with the holder and the deadline, and the store is not touched. -/
theorem lockAll_held (seatId : String) (s : Seat) (e : Nat) (hl : s.state = .locked)
    (he : s.expiresAt = some e) :
    ∀ (calls : List (String × Nat × Nat)) (w : World), w.seats seatId = some s →
      (∀ c ∈ calls, c.2.1 < e) →
      (lockAll w seatId calls).2 = w ∧
      (lockAll w seatId calls).1.length = calls.length ∧
      ∀ r ∈ (lockAll w seatId calls).1,
        r.success = false ∧ r.code = 409 ∧ r.owner = s.owner ∧ r.expiresAt = some e := by
  intro calls
  induction calls with
  | nil => intro w _ _; simp [lockAll]
  | cons c rest ih =>
    intro w hw hc
    obtain ⟨u, now, now2⟩ := c
    have hnow : now < e := hc (u, now, now2) (List.mem_cons_self _ _)
    have h1 := tryLockSeat_held w seatId u now now2 s e hw hl he hnow
    have ih1 := ih w hw (fun c hm => hc c (List.mem_cons_of_mem _ hm))
    simp only [lockAll, h1]
    refine ⟨ih1.1, by simp [ih1.2.1], ?_⟩
    intro r hr
    rcases List.mem_cons.1 hr with rfl | hr
    · exact ⟨rfl, rfl, rfl, rfl⟩
    · exact ih1.2.2 r hr

theorem confirmSeat_missing (w : World) (seatId userId : String) (now : Nat)
    (h : w.seats seatId = none) :
    confirmSeat w seatId userId now =
      ({ success := false, code := 404, message := "Seat not found" }, w) := by
  simp [confirmSeat, h]

theorem confirmSeat_booked (w : World) (seatId userId : String) (now : Nat) (s : Seat)
    (h : w.seats seatId = some s) (hb : s.state = .booked) :
    confirmSeat w seatId userId now =
      ({ success := false, code := 409, message := "Seat already booked" }, w) := by
  simp [confirmSeat, h, hb]

theorem confirmSeat_available (w : World) (seatId userId : String) (now : Nat) (s : Seat)
    (h : w.seats seatId = some s) (ha : s.state = .available) :
    confirmSeat w seatId userId now =
      ({ success := false, code := 400,
         message := "Seat is not locked. You must lock before confirming." }, w) := by
  simp [confirmSeat, h, ha]

theorem confirmSeat_not_owner (w : World) (seatId userId : String) (now : Nat) (s : Seat)
    (h : w.seats seatId = some s) (hl : s.state = .locked) (ho : s.owner ≠ some userId) :
    confirmSeat w seatId userId now =
      ({ success := false, code := 403, message := "You do not own the lock for this seat" },
       w) := by
  simp [confirmSeat, h, hl, ho]

theorem confirmSeat_due (w : World) (seatId userId : String) (now : Nat) (s : Seat)
    (h : w.seats seatId = some s) (hl : s.state = .locked) (ho : s.owner = some userId)
    (hd : ∃ e, s.expiresAt = some e ∧ e ≠ 0 ∧ e ≤ now) :
    confirmSeat w seatId userId now =
      ({ success := false, code := 410, message := "Lock has expired" },
       releaseLockInternal w seatId) := by
  have hc := (due_iff s.expiresAt now).2 hd
  simp only [confirmSeat, h, hl, ho]
  rw [if_neg (by decide), if_neg (by simp), if_neg (by simp), if_pos hc]

/-- The successful path of `confirmSeat` (lines 124-132): result and store. -/
theorem confirmSeat_ok (w : World) (seatId userId : String) (now : Nat) (s : Seat)
    (h : w.seats seatId = some s) (hl : s.state = .locked) (ho : s.owner = some userId)
    (hd : ¬ ∃ e, s.expiresAt = some e ∧ e ≠ 0 ∧ e ≤ now) :
    (confirmSeat w seatId userId now).1 =
        { success := true, code := 200, message := "Seat successfully booked",
          seat := some { id := seatId, owner := userId, expiresAt := none } } ∧
    ∀ k, (confirmSeat w seatId userId now).2.seats k =
        if k = seatId then
          some { state := .booked, owner := some userId, expiresAt := none, _timer := none }
        else w.seats k := by
  have hc := mt (due_iff s.expiresAt now).1 hd
  simp only [confirmSeat, h, hl, ho]
  rw [if_neg (by decide), if_neg (by simp), if_neg (by simp), if_neg hc]
  refine ⟨rfl, fun k => ?_⟩
  obtain ⟨st, ow, ex, tm⟩ := s
  simp only at ho
  by_cases hk : k = seatId
  · subst hk
    cases tm <;> simp [h, ho]
  · cases tm <;> simp [h, hk]

theorem aliceLockedWorld_seat :
    aliceLockedWorld.seats "1" =
      some { state := .locked, owner := some "alice", expiresAt := some 61000,
             _timer := some 0 } := by
  decide

theorem unlockForbidden_iff (owner userId : Option String) :
    unlockForbidden owner userId ↔
      ∃ o, owner = some o ∧ o ≠ "" ∧ userId ≠ some o ∧ userId ≠ some "admin" := by
  unfold unlockForbidden
  cases owner with
  | none => simp [truthyStr]
  | some o =>
    simp only [truthyStr, bne_iff_ne, ne_eq, Option.some.injEq, exists_eq_left']
    constructor
    · rintro ⟨h1, h2, h3⟩
      exact ⟨h1, fun h => h2 h.symm, h3⟩
    · rintro ⟨h1, h2, h3⟩
      exact ⟨h1, fun h => h2 h.symm, h3⟩

theorem unlock_forbidden (w : World) (id : String) (userId : Option String) (s : Seat)
    (hid : id ≠ "") (hs : w.seats id = some s) (hf : unlockForbidden s.owner userId) :
    unlock w (some id) userId =
      ({ status := 403, message := "Only owner or admin can unlock this seat" }, w) := by
  have hid1 : ¬ truthyStr (some id) = false := by simp [truthyStr, hid]
  unfold unlockForbidden at hf
  unfold unlock
  rw [if_neg hid1]
  simp only [Option.getD_some, hs]
  rw [if_pos hf]

theorem unlock_allowed (w : World) (id : String) (userId : Option String) (s : Seat)
    (hid : id ≠ "") (hs : w.seats id = some s) (hf : ¬ unlockForbidden s.owner userId) :
    unlock w (some id) userId =
      ({ status := 200, message := "Lock released (if it existed) for seat " ++ id },
       releaseLockInternal w id) := by
  have hid1 : ¬ truthyStr (some id) = false := by simp [truthyStr, hid]
  unfold unlockForbidden at hf
  unfold unlock
  rw [if_neg hid1]
  simp only [Option.getD_some, hs]
  rw [if_neg hf]

theorem unlock_unknown (w : World) (id : String) (userId : Option String)
    (hs : w.seats id = none) :
    (unlock w (some id) userId).2 = w ∧
      ((unlock w (some id) userId).1.status = 400 ∨
       (unlock w (some id) userId).1.status = 404) := by
  by_cases hid : id = ""
  · simp [unlock, truthyStr, hid]
  · simp [unlock, truthyStr, hid, hs]

theorem unlock_absent (w : World) (userId : Option String) :
    unlock w none userId = ({ status := 400, message := "seatId is required" }, w) := by
  simp [unlock, truthyStr]

theorem unlock_empty (w : World) (userId : Option String) :
    unlock w (some "") userId = ({ status := 400, message := "seatId is required" }, w) := by
  simp [unlock, truthyStr]

/-- On a seat with no timer handle that is not Locked, `releaseLockInternal` returns the
store it was given. -/
theorem releaseLockInternal_idle (w : World) (seatId : String) (s : Seat)
    (hs : w.seats seatId = some s) (ht : s._timer = none) (hl : s.state ≠ .locked) :
    releaseLockInternal w seatId = w := by
  simp only [releaseLockInternal, hs, ht]
  rw [if_neg hl]

theorem releasedSeat_idle (s : Seat) :
    (releasedSeat s)._timer = none ∧ (releasedSeat s).state ≠ .locked := by
  unfold releasedSeat
  by_cases hl : s.state = .locked <;> simp [hl]

/-- A failing `tryLockSeat` answers 404 or 409 and returns the store it was given. -/
theorem tryLockSeat_failure (w : World) (seatId userId : String) (now now2 : Nat)
    (hfail : (tryLockSeat w seatId userId now now2).1.success = false) :
    (tryLockSeat w seatId userId now now2).2 = w ∧
      ((tryLockSeat w seatId userId now now2).1.code = 404 ∨
       (tryLockSeat w seatId userId now now2).1.code = 409) := by
  cases hs : w.seats seatId with
  | none =>
    rw [tryLockSeat_missing w seatId userId now now2 hs]
    exact ⟨rfl, Or.inl rfl⟩
  | some s =>
    by_cases hb : s.state = .booked
    · rw [tryLockSeat_booked w seatId userId now now2 s hs hb]
      exact ⟨rfl, Or.inr rfl⟩
    · by_cases hh : s.state = .locked ∧ ∃ e, s.expiresAt = some e ∧ now < e
      · obtain ⟨hl, e, he, hlt⟩ := hh
        rw [tryLockSeat_held w seatId userId now now2 s e hs hl he hlt]
        exact ⟨rfl, Or.inr rfl⟩
      · have hf : s.state = .locked → ∀ e, s.expiresAt = some e → e ≤ now := by
          intro hl e he
          by_contra hlt
          exact hh ⟨hl, e, he, by omega⟩
        rw [(tryLockSeat_free w seatId userId now now2 s hs hb hf).1] at hfail
        simp at hfail

/-- What `tryLockSeat` does to the entry under any id `k`: nothing, or `k` is the named
seat, which was not Booked and is now Locked by the caller. -/
theorem tryLockSeat_seats (w : World) (seatId userId : String) (now now2 : Nat) (k : String) :
    (tryLockSeat w seatId userId now now2).2.seats k = w.seats k ∨
    (k = seatId ∧ ∃ s, w.seats k = some s ∧ s.state ≠ .booked ∧
      (tryLockSeat w seatId userId now now2).2.seats k =
        some { state := .locked, owner := some userId,
               expiresAt := some (now2 + LOCK_DURATION_MS), _timer := some w.nextTimer }) := by
  cases hsucc : (tryLockSeat w seatId userId now now2).1.success with
  | false => exact Or.inl (by rw [(tryLockSeat_failure w seatId userId now now2 hsucc).1])
  | true =>
    cases hs : w.seats seatId with
    | none =>
      rw [tryLockSeat_missing w seatId userId now now2 hs] at hsucc
      simp at hsucc
    | some s =>
      by_cases hb : s.state = .booked
      · rw [tryLockSeat_booked w seatId userId now now2 s hs hb] at hsucc
        simp at hsucc
      · by_cases hh : s.state = .locked ∧ ∃ e, s.expiresAt = some e ∧ now < e
        · obtain ⟨hl, e, he, hlt⟩ := hh
          rw [tryLockSeat_held w seatId userId now now2 s e hs hl he hlt] at hsucc
          simp at hsucc
        · have hf : s.state = .locked → ∀ e, s.expiresAt = some e → e ≤ now := by
            intro hl e he
            by_contra hlt
            exact hh ⟨hl, e, he, by omega⟩
          have hw := (tryLockSeat_free w seatId userId now now2 s hs hb hf).2 k
          by_cases hk : k = seatId
          · subst hk
            right
            rw [hw]
            exact ⟨rfl, s, hs, hb, by simp⟩
          · left
            rw [hw]
            simp [hk]

/-- A failing `confirmSeat` other than 410 answers 404, 409, 400 or 403 and returns the
store it was given; with 410 the named seat was Locked and is released. -/
theorem confirmSeat_failure (w : World) (seatId userId : String) (now : Nat)
    (hfail : (confirmSeat w seatId userId now).1.success = false) :
    ((confirmSeat w seatId userId now).2 = w ∧
      ((confirmSeat w seatId userId now).1.code = 404 ∨
       (confirmSeat w seatId userId now).1.code = 409 ∨
       (confirmSeat w seatId userId now).1.code = 400 ∨
       (confirmSeat w seatId userId now).1.code = 403)) ∨
    ((confirmSeat w seatId userId now).1.code = 410 ∧
      (confirmSeat w seatId userId now).2 = releaseLockInternal w seatId ∧
      ∃ s, w.seats seatId = some s ∧ s.state = .locked ∧ s.owner = some userId) := by
  cases hs : w.seats seatId with
  | none =>
    rw [confirmSeat_missing w seatId userId now hs]
    exact Or.inl ⟨rfl, Or.inl rfl⟩
  | some s =>
    cases hst : s.state with
    | booked =>
      rw [confirmSeat_booked w seatId userId now s hs hst]
      exact Or.inl ⟨rfl, Or.inr (Or.inl rfl)⟩
    | available =>
      rw [confirmSeat_available w seatId userId now s hs hst]
      exact Or.inl ⟨rfl, Or.inr (Or.inr (Or.inl rfl))⟩
    | locked =>
      by_cases ho : s.owner = some userId
      · by_cases hd : ∃ e, s.expiresAt = some e ∧ e ≠ 0 ∧ e ≤ now
        · rw [confirmSeat_due w seatId userId now s hs hst ho hd]
          exact Or.inr ⟨rfl, rfl, s, rfl, hst, ho⟩
        · rw [(confirmSeat_ok w seatId userId now s hs hst ho hd).1] at hfail
          simp at hfail
      · rw [confirmSeat_not_owner w seatId userId now s hs hst ho]
        exact Or.inl ⟨rfl, Or.inr (Or.inr (Or.inr rfl))⟩

/-- What `confirmSeat` does to the entry under any id `k`: nothing, or `k` is the named
seat, which was Locked by the caller and is now Booked by the caller or released. -/
theorem confirmSeat_seats (w : World) (seatId userId : String) (now : Nat) (k : String) :
    (confirmSeat w seatId userId now).2.seats k = w.seats k ∨
    (k = seatId ∧ ∃ s, w.seats k = some s ∧ s.state = .locked ∧ s.owner = some userId ∧
      ((confirmSeat w seatId userId now).2.seats k =
          some { state := .booked, owner := some userId, expiresAt := none, _timer := none } ∨
       (confirmSeat w seatId userId now).2.seats k =
          some { state := .available, owner := none, expiresAt := none, _timer := none })) := by
  cases hsucc : (confirmSeat w seatId userId now).1.success with
  | false =>
    rcases confirmSeat_failure w seatId userId now hsucc with ⟨h, -⟩ | ⟨-, h, s, hs, hl, ho⟩
    · exact Or.inl (by rw [h])
    · rw [h, seats_releaseLockInternal]
      by_cases hk : k = seatId
      · subst hk
        exact Or.inr ⟨rfl, s, hs, hl, ho, Or.inr (by simp [hs, releasedSeat, hl])⟩
      · exact Or.inl (by simp [hk])
  | true =>
    cases hs : w.seats seatId with
    | none =>
      rw [confirmSeat_missing w seatId userId now hs] at hsucc
      simp at hsucc
    | some s =>
      cases hst : s.state with
      | booked =>
        rw [confirmSeat_booked w seatId userId now s hs hst] at hsucc
        simp at hsucc
      | available =>
        rw [confirmSeat_available w seatId userId now s hs hst] at hsucc
        simp at hsucc
      | locked =>
        by_cases ho : s.owner = some userId
        · by_cases hd : ∃ e, s.expiresAt = some e ∧ e ≠ 0 ∧ e ≤ now
          · rw [confirmSeat_due w seatId userId now s hs hst ho hd] at hsucc
            simp at hsucc
          · have hw := (confirmSeat_ok w seatId userId now s hs hst ho hd).2 k
            by_cases hk : k = seatId
            · subst hk
              exact Or.inr ⟨rfl, s, hs, hst, ho, Or.inl (by rw [hw]; simp)⟩
            · exact Or.inl (by rw [hw]; simp [hk])
        · rw [confirmSeat_not_owner w seatId userId now s hs hst ho] at hsucc
          simp at hsucc

/-- A refused `unlock` (any answer but 200) returns the store it was given, and the answer
is 400, 404 or 403. -/
theorem unlock_failure (w : World) (seatId userId : Option String)
    (hfail : (unlock w seatId userId).1.status ≠ 200) :
    (unlock w seatId userId).2 = w ∧
      ((unlock w seatId userId).1.status = 400 ∨ (unlock w seatId userId).1.status = 404 ∨
       (unlock w seatId userId).1.status = 403) := by
  cases seatId with
  | none =>
    rw [unlock_absent]
    exact ⟨rfl, Or.inl rfl⟩
  | some id =>
    cases hs : w.seats id with
    | none =>
      obtain ⟨h1, h2⟩ := unlock_unknown w id userId hs
      exact ⟨h1, by rcases h2 with h | h <;> simp [h]⟩
    | some s =>
      by_cases hid : id = ""
      · subst hid
        rw [unlock_empty]
        exact ⟨rfl, Or.inl rfl⟩
      · by_cases hf : unlockForbidden s.owner userId
        · rw [unlock_forbidden w id userId s hid hs hf]
          exact ⟨rfl, Or.inr (Or.inr rfl)⟩
        · rw [unlock_allowed w id userId s hid hs hf] at hfail
          simp at hfail

/-- What `unlock` does to the entry under any id `k`: nothing, or the seat object is the
one `releaseLockInternal` leaves. -/
theorem unlock_seats (w : World) (seatId userId : Option String) (k : String) :
    (unlock w seatId userId).2.seats k = w.seats k ∨
    (unlock w seatId userId).2.seats k = (w.seats k).map releasedSeat := by
  by_cases h : (unlock w seatId userId).1.status = 200
  · cases seatId with
    | none =>
      rw [unlock_absent] at h
      simp at h
    | some id =>
      cases hs : w.seats id with
      | none =>
        exact Or.inl (by rw [(unlock_unknown w id userId hs).1])
      | some s =>
        by_cases hid : id = ""
        · subst hid
          rw [unlock_empty] at h
          simp at h
        · by_cases hf : unlockForbidden s.owner userId
          · rw [unlock_forbidden w id userId s hid hs hf] at h
            simp at h
          · rw [unlock_allowed w id userId s hid hs hf, seats_releaseLockInternal]
            by_cases hk : k = id
            · exact Or.inr (by simp [hk])
            · exact Or.inl (by simp [hk])
  · exact Or.inl (by rw [(unlock_failure w seatId userId h).1])

/-- What the timer callback does to the entry under any id `k`: nothing, or `k` is its
seat, which was Locked with a non-zero deadline at or before `now` and is now Available. -/
theorem expiryCallback_seats (w : World) (seatId : String) (now : Nat) (k : String) :
    (expiryCallback w seatId now).seats k = w.seats k ∨
    (k = seatId ∧ ∃ s e, w.seats k = some s ∧ s.state = .locked ∧ s.expiresAt = some e ∧
      e ≠ 0 ∧ e ≤ now ∧
      (expiryCallback w seatId now).seats k =
        some { state := .available, owner := none, expiresAt := none, _timer := none }) := by
  unfold expiryCallback
  cases hs : w.seats seatId with
  | none => exact Or.inl rfl
  | some s =>
    simp only
    by_cases hc : s.state = .locked ∧ truthyNum s.expiresAt = true ∧ ∀ e ∈ s.expiresAt, e ≤ now
    · rw [if_pos hc]
      by_cases hk : k = seatId
      · subst hk
        obtain ⟨e, he, hne, hle⟩ := (due_iff _ _).1 hc.2
        exact Or.inr ⟨rfl, s, e, hs, hc.1, he, hne, hle, by simp [hs]⟩
      · exact Or.inl (by simp [hk])
    · rw [if_neg hc]
      exact Or.inl rfl

theorem seatInv_releasedSeat (s : Seat) (h : SeatInv s) : SeatInv (releasedSeat s) := by
  unfold releasedSeat
  by_cases hl : s.state = .locked
  · simp [hl, SeatInv]
  · simpa [hl, SeatInv] using h

/-- Every step preserves the seat relations on every seat. -/
theorem seatInv_step (w : World) (st : Step) (hw : ∀ k s, w.seats k = some s → SeatInv s) :
    ∀ k s, (step w st).seats k = some s → SeatInv s := by
  intro k s hs
  cases st with
  | lock seatId userId now now2 =>
    rcases tryLockSeat_seats w seatId userId now now2 k with h | ⟨-, -, -, -, h⟩
    · exact hw k s (by rw [← h]; exact hs)
    · simp only [step] at hs
      rw [h] at hs
      cases hs
      simp [SeatInv]
  | confirm seatId userId now =>
    rcases confirmSeat_seats w seatId userId now k with h | ⟨-, -, -, -, -, h | h⟩
    · exact hw k s (by rw [← h]; exact hs)
    · simp only [step] at hs
      rw [h] at hs
      cases hs
      simp [SeatInv]
    · simp only [step] at hs
      rw [h] at hs
      cases hs
      simp [SeatInv]
  | unlock seatId userId =>
    rcases unlock_seats w seatId userId k with h | h
    · exact hw k s (by rw [← h]; exact hs)
    · simp only [step] at hs
      rw [h] at hs
      cases h0 : w.seats k with
      | none => simp [h0] at hs
      | some s0 =>
        simp only [h0, Option.map_some', Option.some.injEq] at hs
        subst hs
        exact seatInv_releasedSeat s0 (hw k s0 h0)
  | expire seatId now =>
    rcases expiryCallback_seats w seatId now k with h | ⟨-, -, -, -, -, -, -, -, h⟩
    · exact hw k s (by rw [← h]; exact hs)
    · simp only [step] at hs
      rw [h] at hs
      cases hs
      simp [SeatInv]

/-- The seat relations hold on every seat of every reachable store. -/
theorem reachable_seatInv (w : World) (hw : Reachable w) :
    ∀ k s, w.seats k = some s → SeatInv s := by
  induction hw with
  | init =>
    intro k s hs
    simp only [initialWorld] at hs
    split at hs
    · cases hs
      simp [SeatInv, initialSeat]
    · cases hs
  | next w st _ ih => exact seatInv_step w st ih

theorem aliceBookedWorld_seat :
    aliceBookedWorld.seats "1" =
      some { state := .booked, owner := some "alice", expiresAt := none, _timer := none } := by
  decide

/-- The timer installed by a successful `tryLockSeat` (lines 83-94) is pending afterwards:
it closes over the named seat and has delay `LOCK_DURATION_MS + 10`. -/
theorem tryLockSeat_timer (w : World) (seatId userId : String) (now now2 : Nat) (s : Seat)
    (h : w.seats seatId = some s) (hb : s.state ≠ .booked)
    (hf : s.state = .locked → ∀ e, s.expiresAt = some e → e ≤ now) :
    ({ id := w.nextTimer, seatId := seatId, delay := 60010 } : Timer) ∈
      (tryLockSeat w seatId userId now now2).2.timers := by
  have hc : ¬ (s.state = .locked ∧ truthyNum s.expiresAt = true ∧ ∀ x ∈ s.expiresAt, x > now) := by
    rintro ⟨hl, hh⟩
    obtain ⟨e, he, hlt⟩ := (held_iff _ _).1 hh
    have := hf hl e he
    omega
  simp only [tryLockSeat, h]
  rw [if_neg hb, if_neg hc]
  obtain ⟨st, ow, ex, tm⟩ := s
  by_cases hl : st = .locked
  · cases tm <;>
      simp [hl, h, seats_releaseLockInternal, releasedSeat, setTimeout, clearTimeout, modifySeat,
        LOCK_DURATION_MS]
  · cases tm <;> simp [hl, h, setTimeout, clearTimeout, modifySeat, LOCK_DURATION_MS]

/-- A successful `tryLockSeat` found the named seat not Booked and not held. -/
theorem tryLockSeat_success_pre (w : World) (seatId userId : String) (now now2 : Nat)
    (hsucc : (tryLockSeat w seatId userId now now2).1.success = true) :
    ∃ s, w.seats seatId = some s ∧ s.state ≠ .booked ∧
      (s.state = .locked → ∀ e, s.expiresAt = some e → e ≤ now) := by
  cases hs : w.seats seatId with
  | none =>
    rw [tryLockSeat_missing w seatId userId now now2 hs] at hsucc
    simp at hsucc
  | some s =>
    by_cases hb : s.state = .booked
    · rw [tryLockSeat_booked w seatId userId now now2 s hs hb] at hsucc
      simp at hsucc
    · by_cases hh : s.state = .locked ∧ ∃ e, s.expiresAt = some e ∧ now < e
      · obtain ⟨hl, e, he, hlt⟩ := hh
        rw [tryLockSeat_held w seatId userId now now2 s e hs hl he hlt] at hsucc
        simp at hsucc
      · refine ⟨s, rfl, hb, ?_⟩
        intro hl e he
        by_contra hlt
        exact hh ⟨hl, e, he, by omega⟩

/-- The timer callback on a seat that is Locked with a non-zero deadline at or before `now`. -/
theorem expiryCallback_due (w : World) (seatId : String) (now : Nat) (s : Seat) (e : Nat)
    (hs : w.seats seatId = some s) (hl : s.state = .locked) (he : s.expiresAt = some e)
    (hne : e ≠ 0) (hle : e ≤ now) :
    (expiryCallback w seatId now).seats seatId =
      some { state := .available, owner := none, expiresAt := none, _timer := none } := by
  have hc := (due_iff s.expiresAt now).2 ⟨e, he, hne, hle⟩
  simp only [expiryCallback, hs]
  rw [if_pos ⟨hl, hc⟩]
  simp [hs]

/-- The timer callback on any other seat returns the store it was given. -/
theorem expiryCallback_idle (w : World) (seatId : String) (now : Nat)
    (h : ∀ s, w.seats seatId = some s →
      ¬ (s.state = .locked ∧ ∃ e, s.expiresAt = some e ∧ e ≠ 0 ∧ e ≤ now)) :
    expiryCallback w seatId now = w := by
  unfold expiryCallback
  cases hs : w.seats seatId with
  | none => rfl
  | some s =>
    simp only
    rw [if_neg]
    rintro ⟨hl, hc⟩
    exact h s hs ⟨hl, (due_iff _ _).1 hc⟩

/-- Every step leaves each Locked seat with a deadline of at least `LOCK_DURATION_MS`. -/
theorem deadline_step (w : World) (st : Step)
    (hw : ∀ k s, w.seats k = some s → s.state = .locked →
      ∃ e, s.expiresAt = some e ∧ 60000 ≤ e) :
    ∀ k s, (step w st).seats k = some s → s.state = .locked →
      ∃ e, s.expiresAt = some e ∧ 60000 ≤ e := by
  intro k s hs hl
  cases st with
  | lock seatId userId now now2 =>
    rcases tryLockSeat_seats w seatId userId now now2 k with h | ⟨-, -, -, -, h⟩
    · exact hw k s (by rw [← h]; exact hs) hl
    · simp only [step] at hs
      rw [h] at hs
      cases hs
      exact ⟨now2 + LOCK_DURATION_MS, rfl, by simp [LOCK_DURATION_MS]⟩
  | confirm seatId userId now =>
    rcases confirmSeat_seats w seatId userId now k with h | ⟨-, -, -, -, -, h | h⟩
    · exact hw k s (by rw [← h]; exact hs) hl
    · simp only [step] at hs
      rw [h] at hs
      cases hs
      cases hl
    · simp only [step] at hs
      rw [h] at hs
      cases hs
      cases hl
  | unlock seatId userId =>
    rcases unlock_seats w seatId userId k with h | h
    · exact hw k s (by rw [← h]; exact hs) hl
    · simp only [step] at hs
      rw [h] at hs
      cases h0 : w.seats k with
      | none => simp [h0] at hs
      | some s0 =>
        simp only [h0, Option.map_some', Option.some.injEq] at hs
        subst hs
        exact absurd hl (releasedSeat_idle s0).2
  | expire seatId now =>
    rcases expiryCallback_seats w seatId now k with h | ⟨-, -, -, -, -, -, -, -, h⟩
    · exact hw k s (by rw [← h]; exact hs) hl
    · simp only [step] at hs
      rw [h] at hs
      cases hs
      cases hl

/-- In every reachable store each Locked seat carries a deadline, stamped by line 74 as a
clock reading plus `LOCK_DURATION_MS`, hence at least 60000. -/
theorem reachable_deadline (w : World) (hw : Reachable w) :
    ∀ k s, w.seats k = some s → s.state = .locked →
      ∃ e, s.expiresAt = some e ∧ 60000 ≤ e := by
  induction hw with
  | init =>
    intro k s hs hl
    simp only [initialWorld] at hs
    split at hs
    · cases hs
      cases hl
    · cases hs
  | next w st _ ih => exact deadline_step w st ih

theorem aliceLockedWorld_reachable : Reachable aliceLockedWorld :=
  Reachable.next initialWorld (.lock "1" "alice" 1000 1000) Reachable.init

/-- Exactly when `confirmSeat` succeeds, on any store: the seat exists, is Locked, is owned
by the caller, and the guard of line 118 does not fire. -/
theorem confirmSeat_success_iff (w : World) (seatId userId : String) (now : Nat) :
    (confirmSeat w seatId userId now).1.success = true ↔
      ∃ s, w.seats seatId = some s ∧ s.state = .locked ∧ s.owner = some userId ∧
        ¬ ∃ e, s.expiresAt = some e ∧ e ≠ 0 ∧ e ≤ now := by
  cases hs : w.seats seatId with
  | none =>
    rw [confirmSeat_missing w seatId userId now hs]
    simp
  | some s =>
    cases hst : s.state with
    | booked =>
      rw [confirmSeat_booked w seatId userId now s hs hst]
      simp [hst]
    | available =>
      rw [confirmSeat_available w seatId userId now s hs hst]
      simp [hst]
    | locked =>
      by_cases ho : s.owner = some userId
      · by_cases hd : ∃ e, s.expiresAt = some e ∧ e ≠ 0 ∧ e ≤ now
        · rw [confirmSeat_due w seatId userId now s hs hst ho hd]
          simp only [Bool.false_eq_true, Option.some.injEq, exists_eq_left', false_iff]
          rintro ⟨-, -, h⟩
          exact h hd
        · rw [(confirmSeat_ok w seatId userId now s hs hst ho hd).1]
          simp only [Option.some.injEq, exists_eq_left', true_iff]
          exact ⟨hst, ho, hd⟩
      · rw [confirmSeat_not_owner w seatId userId now s hs hst ho]
        simp only [Bool.false_eq_true, Option.some.injEq, exists_eq_left', false_iff]
        rintro ⟨-, h, -⟩
        exact ho h

/-! ## The claims -/

/-- C1 (mutual exclusion of lock).  On an existing Available seat, lock requests served one
after the other in any order, every later one reading the clock before the first lock's
deadline `now2 + 60000`: the first request served succeeds with code 200, it is the only one
that succeeds, every other request is refused with code 409 and a payload naming the winner
and the winner's deadline, and afterwards the seat is Locked and owned by the winner. -/
theorem lock_mutual_exclusion (w : World) (seatId : String) (s : Seat) (winner : String)
    (now now2 : Nat) (others : List (String × Nat × Nat))
    (hs : w.seats seatId = some s) (ha : s.state = .available)
    (hbefore : ∀ c ∈ others, c.2.1 < now2 + 60000) :
    (lockAll w seatId ((winner, now, now2) :: others)).1.length = others.length + 1 ∧
    (∃ r0, (lockAll w seatId ((winner, now, now2) :: others)).1.head? = some r0 ∧
      r0.success = true ∧ r0.code = 200 ∧
      r0.seat = some { id := seatId, owner := winner, expiresAt := some (now2 + 60000) }) ∧
    (∀ r ∈ (lockAll w seatId ((winner, now, now2) :: others)).1.tail,
      r.success = false ∧ r.code = 409 ∧ r.owner = some winner ∧
        r.expiresAt = some (now2 + 60000)) ∧
    ((lockAll w seatId ((winner, now, now2) :: others)).1.filter
      (fun r => r.success)).length = 1 ∧
    (∃ t, (lockAll w seatId ((winner, now, now2) :: others)).2.seats seatId =
      some { state := .locked, owner := some winner, expiresAt := some (now2 + 60000),
             _timer := t }) := by
  have hfree := tryLockSeat_free w seatId winner now now2 s hs (by simp [ha]) (by simp [ha])
  have hseat := hfree.2 seatId
  simp only [if_true, LOCK_DURATION_MS] at hseat
  have hrest := lockAll_held seatId _ (now2 + 60000) rfl rfl others _ hseat hbefore
  simp only [lockAll]
  refine ⟨by simp [hrest.2.1], ⟨_, rfl, ?_, ?_, ?_⟩, ?_, ?_, ?_⟩
  · rw [hfree.1]
  · rw [hfree.1]
  · rw [hfree.1]; rfl
  · intro r hr
    exact hrest.2.2 r (by simpa using hr)
  · rw [List.filter_cons_of_pos (by rw [hfree.1])]
    have : (lockAll (tryLockSeat w seatId winner now now2).2 seatId others).1.filter
        (fun r => r.success) = [] := by
      rw [List.filter_eq_nil_iff]
      intro r hr
      simp [(hrest.2.2 r hr).1]
    simp [this]
  · exact ⟨_, by rw [hrest.1]; exact hseat⟩

/-- Witness for C1: on the initial store alice, bob, carol and dave ask for seat `"1"`,
alice being served first at 1000 and the others within the next milliseconds. -/
theorem lock_mutual_exclusion_witness :
    initialWorld.seats "1" = some initialSeat ∧
    (∀ c ∈ [("bob", 1001, 1001), ("carol", 1002, 1002), ("dave", 1003, 1003)],
      c.2.1 < 1000 + 60000) ∧
    ((lockAll initialWorld "1"
        (("alice", 1000, 1000) ::
          [("bob", 1001, 1001), ("carol", 1002, 1002), ("dave", 1003, 1003)])).1.filter
      (fun r => r.success)).length = 1 :=
  ⟨by decide, by decide,
    (lock_mutual_exclusion initialWorld "1" initialSeat "alice" 1000 1000
      [("bob", 1001, 1001), ("carol", 1002, 1002), ("dave", 1003, 1003)]
      (by decide) rfl (by decide)).2.2.2.1⟩

/-- C2 (seat invariants).  In every store reachable from the initial one (the seats
`"1"` to `"20"`, all Available with null owner, deadline and timer) by any sequence of
`tryLockSeat`, `confirmSeat`, `unlock` and timer-callback runs, with any arguments and clock
readings, every seat has a non-null owner exactly when it is Locked or Booked, and a
non-null deadline exactly when it is Locked. -/
theorem seat_invariants (w : World) (hw : Reachable w) (k : String) (s : Seat)
    (hs : w.seats k = some s) :
    (s.owner ≠ none ↔ (s.state = .locked ∨ s.state = .booked)) ∧
    (s.expiresAt ≠ none ↔ s.state = .locked) := by
  exact reachable_seatInv w hw k s hs

/-- Witness for C2: the store after alice locks and confirms seat `"1"`. -/
theorem seat_invariants_witness :
    Reachable aliceBookedWorld ∧
    aliceBookedWorld.seats "1" =
      some { state := .booked, owner := some "alice", expiresAt := none, _timer := none } ∧
    ((some "alice" : Option String) ≠ none ↔
      (SeatState.booked = .locked ∨ SeatState.booked = .booked)) ∧
    ((none : Option Nat) ≠ none ↔ SeatState.booked = .locked) :=
  ⟨Reachable.next _ _ (Reachable.next _ _ Reachable.init), aliceBookedWorld_seat,
    seat_invariants aliceBookedWorld (Reachable.next _ _ (Reachable.next _ _ Reachable.init))
      "1" _ aliceBookedWorld_seat⟩

/-- C3 (result of lock).  For every store, seat id, user id and clock readings (`now` at
the expiry check, `now2` when the deadline is stamped; the claim's single reading is
`now2 = now`): code 404 exactly when the id names no seat; code 409 exactly when the seat is
Booked or is Locked with a deadline after `now`; success with code 200 exactly when the seat
is Available or is Locked with no deadline after `now` (a deadline equal to `now` included).
On success the seat ends Locked, owned by the caller, with deadline `now2 + 60000`, the
result carries the seat id, the caller and that deadline, and every other seat is unchanged. -/
theorem tryLockSeat_result (w : World) (seatId userId : String) (now now2 : Nat) :
    ((tryLockSeat w seatId userId now now2).1.code = 404 ↔ w.seats seatId = none) ∧
    ((tryLockSeat w seatId userId now now2).1.code = 409 ↔
      ∃ s, w.seats seatId = some s ∧
        (s.state = .booked ∨ (s.state = .locked ∧ ∃ e, s.expiresAt = some e ∧ now < e))) ∧
    (((tryLockSeat w seatId userId now now2).1.success = true ∧
        (tryLockSeat w seatId userId now now2).1.code = 200) ↔
      ∃ s, w.seats seatId = some s ∧
        (s.state = .available ∨ (s.state = .locked ∧ ∀ e, s.expiresAt = some e → e ≤ now))) ∧
    ((tryLockSeat w seatId userId now now2).1.success = true ↔
      (tryLockSeat w seatId userId now now2).1.code = 200) ∧
    ((tryLockSeat w seatId userId now now2).1.success = true →
      (∃ t, (tryLockSeat w seatId userId now now2).2.seats seatId =
        some { state := .locked, owner := some userId, expiresAt := some (now2 + 60000),
               _timer := t }) ∧
      (tryLockSeat w seatId userId now now2).1.seat =
        some { id := seatId, owner := userId, expiresAt := some (now2 + 60000) } ∧
      ∀ k, k ≠ seatId → (tryLockSeat w seatId userId now now2).2.seats k = w.seats k) := by
  cases hs : w.seats seatId with
  | none =>
    rw [tryLockSeat_missing w seatId userId now now2 hs]
    simp
  | some s =>
    by_cases hb : s.state = .booked
    · rw [tryLockSeat_booked w seatId userId now now2 s hs hb]
      simp [hb]
    · by_cases hh : s.state = .locked ∧ ∃ e, s.expiresAt = some e ∧ now < e
      · obtain ⟨hl, e, he, hlt⟩ := hh
        rw [tryLockSeat_held w seatId userId now now2 s e hs hl he hlt]
        refine ⟨by simp, ?_, ?_, by simp, by simp⟩
        · simp only [true_iff]
          exact ⟨s, rfl, Or.inr ⟨hl, e, he, hlt⟩⟩
        · simp only [Bool.false_eq_true, false_and, Option.some.injEq, exists_eq_left',
            false_iff]
          rintro (h1 | ⟨_, h2⟩)
          · rw [hl] at h1; cases h1
          · have := h2 e he
            omega
      · have hf : s.state = .locked → ∀ e, s.expiresAt = some e → e ≤ now := by
          intro hl e he
          by_contra hlt
          exact hh ⟨hl, e, he, by omega⟩
        obtain ⟨hr, hw⟩ := tryLockSeat_free w seatId userId now now2 s hs hb hf
        rw [hr]
        refine ⟨by simp, ?_, ?_, by simp, ?_⟩
        · simp only [Nat.reduceEqDiff, Option.some.injEq, exists_eq_left', false_iff]
          rintro (h1 | h2)
          · exact hb h1
          · exact hh h2
        · simp only [and_self, Option.some.injEq, exists_eq_left', true_iff]
          cases hst : s.state with
          | available => exact Or.inl rfl
          | locked => exact Or.inr ⟨rfl, hf hst⟩
          | booked => exact absurd hst hb
        · intro _
          refine ⟨⟨some w.nextTimer, ?_⟩, rfl, ?_⟩
          · rw [hw]; simp [LOCK_DURATION_MS]
          · intro k hk
            rw [hw]; simp [hk]

/-- C4 (success of confirm).  In every store reachable from the initial one, for every
seat id, user id and clock reading, `confirmSeat` succeeds exactly when the seat exists, is
Locked, is owned by exactly that user and its deadline is strictly after `now`.  On any
store whatever: such a seat makes the call succeed; a successful call found the seat Locked
and owned by the caller; on success the code is 200, the seat ends Booked with the same
owner, no deadline and no timer handle, and every other seat is unchanged; and a seat that
is Booked after the call was Booked before it or is the named seat, which was Locked and
owned by the caller. -/
theorem confirmSeat_success (w : World) (seatId userId : String) (now : Nat) :
    (Reachable w →
      ((confirmSeat w seatId userId now).1.success = true ↔
        ∃ s e, w.seats seatId = some s ∧ s.state = .locked ∧ s.owner = some userId ∧
          s.expiresAt = some e ∧ now < e)) ∧
    ((∃ s e, w.seats seatId = some s ∧ s.state = .locked ∧ s.owner = some userId ∧
        s.expiresAt = some e ∧ now < e) →
      (confirmSeat w seatId userId now).1.success = true) ∧
    ((confirmSeat w seatId userId now).1.success = true →
      ∃ s, w.seats seatId = some s ∧ s.state = .locked ∧ s.owner = some userId) ∧
    ((confirmSeat w seatId userId now).1.success = true →
      (confirmSeat w seatId userId now).1.code = 200 ∧
      (confirmSeat w seatId userId now).2.seats seatId =
        some { state := .booked, owner := some userId, expiresAt := none, _timer := none } ∧
      ∀ k, k ≠ seatId → (confirmSeat w seatId userId now).2.seats k = w.seats k) ∧
    (∀ k s1, (confirmSeat w seatId userId now).2.seats k = some s1 → s1.state = .booked →
      ∃ s, w.seats k = some s ∧
        (s.state = .booked ∨ (k = seatId ∧ s.state = .locked ∧ s.owner = some userId))) := by
  have hif : (∃ s e, w.seats seatId = some s ∧ s.state = .locked ∧ s.owner = some userId ∧
      s.expiresAt = some e ∧ now < e) → (confirmSeat w seatId userId now).1.success = true := by
    rintro ⟨s, e, hs, hl, ho, he, hlt⟩
    refine (confirmSeat_success_iff w seatId userId now).2 ⟨s, hs, hl, ho, ?_⟩
    rintro ⟨x, hx, -, hxle⟩
    rw [he] at hx
    cases hx
    omega
  refine ⟨fun hreach => ⟨fun hsucc => ?_, hif⟩, hif, fun hsucc => ?_, fun hsucc => ?_, ?_⟩
  · obtain ⟨s, hs, hl, ho, hd⟩ := (confirmSeat_success_iff w seatId userId now).1 hsucc
    obtain ⟨e, he, hge⟩ := reachable_deadline w hreach seatId s hs hl
    refine ⟨s, e, hs, hl, ho, he, ?_⟩
    by_contra hle
    exact hd ⟨e, he, by omega, by omega⟩
  · obtain ⟨s, hs, hl, ho, -⟩ := (confirmSeat_success_iff w seatId userId now).1 hsucc
    exact ⟨s, hs, hl, ho⟩
  · obtain ⟨s, hs, hl, ho, hd⟩ := (confirmSeat_success_iff w seatId userId now).1 hsucc
    obtain ⟨hr, hw⟩ := confirmSeat_ok w seatId userId now s hs hl ho hd
    refine ⟨by rw [hr], ?_, fun k hk => ?_⟩
    · rw [hw]; simp
    · rw [hw]; simp [hk]
  · intro k s1 h1 h2
    rcases confirmSeat_seats w seatId userId now k with h | ⟨hk, s, hs, hl, ho, -⟩
    · exact ⟨s1, by rw [← h]; exact h1, Or.inl h2⟩
    · exact ⟨s, hs, Or.inr ⟨hk, hl, ho⟩⟩

/-- Witness for C4: alice holds seat `"1"` until 61000 and confirms at 2000. -/
theorem confirmSeat_success_witness :
    Reachable aliceLockedWorld ∧
    (confirmSeat aliceLockedWorld "1" "alice" 2000).1.success = true ∧
    (confirmSeat aliceLockedWorld "1" "alice" 2000).2.seats "1" =
      some { state := .booked, owner := some "alice", expiresAt := none, _timer := none } := by
  have h := confirmSeat_success aliceLockedWorld "1" "alice" 2000
  have hok : (confirmSeat aliceLockedWorld "1" "alice" 2000).1.success = true :=
    (h.1 aliceLockedWorld_reachable).2
      ⟨_, 61000, aliceLockedWorld_seat, rfl, rfl, rfl, by decide⟩
  exact ⟨aliceLockedWorld_reachable, hok, (h.2.2.2.1 hok).2.1⟩

/-- C5 (failure codes of confirm, in order of precedence).  `confirmSeat` fails with 404
when the seat is unknown; otherwise with 409 when it is Booked, whoever calls; otherwise
with 400 when it is not Locked; otherwise with 403 when the lock's owner differs from the
caller, whatever the deadline, and then the store is untouched, so the seat stays Locked;
otherwise, in every store reachable from the initial one, with 410 when the deadline is at
or before `now`, and then the seat is reset to Available with no owner, no deadline and no
timer handle. -/
theorem confirmSeat_failure_codes (w : World) (seatId userId : String) (now : Nat) :
    (w.seats seatId = none →
      (confirmSeat w seatId userId now).1.success = false ∧
      (confirmSeat w seatId userId now).1.code = 404) ∧
    (∀ s, w.seats seatId = some s →
      (s.state = .booked →
        (confirmSeat w seatId userId now).1.success = false ∧
        (confirmSeat w seatId userId now).1.code = 409) ∧
      (s.state ≠ .booked → s.state ≠ .locked →
        (confirmSeat w seatId userId now).1.success = false ∧
        (confirmSeat w seatId userId now).1.code = 400) ∧
      (s.state = .locked → s.owner ≠ some userId →
        (confirmSeat w seatId userId now).1.success = false ∧
        (confirmSeat w seatId userId now).1.code = 403 ∧
        (confirmSeat w seatId userId now).2 = w) ∧
      (Reachable w → s.state = .locked → s.owner = some userId →
        ∀ e, s.expiresAt = some e → e ≤ now →
        (confirmSeat w seatId userId now).1.success = false ∧
        (confirmSeat w seatId userId now).1.code = 410 ∧
        (confirmSeat w seatId userId now).2.seats seatId =
          some { state := .available, owner := none, expiresAt := none, _timer := none })) := by
  refine ⟨fun h => ?_, fun s hs => ⟨fun hb => ?_, fun hb hl => ?_, fun hl ho => ?_,
    fun hreach hl ho e he hle => ?_⟩⟩
  · rw [confirmSeat_missing w seatId userId now h]
    exact ⟨rfl, rfl⟩
  · rw [confirmSeat_booked w seatId userId now s hs hb]
    exact ⟨rfl, rfl⟩
  · have ha : s.state = .available := by
      cases hst : s.state with
      | available => rfl
      | locked => exact absurd hst hl
      | booked => exact absurd hst hb
    rw [confirmSeat_available w seatId userId now s hs ha]
    exact ⟨rfl, rfl⟩
  · rw [confirmSeat_not_owner w seatId userId now s hs hl ho]
    exact ⟨rfl, rfl, rfl⟩
  · obtain ⟨e1, he1, hge⟩ := reachable_deadline w hreach seatId s hs hl
    rw [he] at he1
    cases he1
    rw [confirmSeat_due w seatId userId now s hs hl ho ⟨e, he, by omega, hle⟩]
    refine ⟨rfl, rfl, ?_⟩
    simp [seats_releaseLockInternal, hs, releasedSeat, hl]

/-- Witness for C5: alice holds seat `"1"` until 61000 and confirms at 61000, too late. -/
theorem confirmSeat_failure_codes_witness :
    Reachable aliceLockedWorld ∧
    (confirmSeat aliceLockedWorld "1" "alice" 61000).1.success = false ∧
    (confirmSeat aliceLockedWorld "1" "alice" 61000).1.code = 410 ∧
    (confirmSeat aliceLockedWorld "1" "alice" 61000).2.seats "1" =
      some { state := .available, owner := none, expiresAt := none, _timer := none } :=
  ⟨aliceLockedWorld_reachable,
    ((confirmSeat_failure_codes aliceLockedWorld "1" "alice" 61000).2 _
      aliceLockedWorld_seat).2.2.2 aliceLockedWorld_reachable rfl rfl 61000 rfl (by decide)⟩

/-- C6 (authorisation of unlock), at the input where the code departs from it.  After
`tryLockSeat("1", "")` on the initial store, seat `"1"` is Locked and its owner is the empty
string, which is not null; the caller `bob` is neither that owner nor `admin`; the `/unlock`
handler does not answer 403 but 200, and releases the seat. -/
theorem unlock_empty_owner :
    Reachable emptyOwnerWorld ∧
    emptyOwnerWorld.seats "1" =
      some { state := .locked, owner := some "", expiresAt := some 61000,
             _timer := some 0 } ∧
    (some "" : Option String) ≠ none ∧ "bob" ≠ "" ∧ "bob" ≠ "admin" ∧
    (unlock emptyOwnerWorld (some "1") (some "bob")).1.status = 200 ∧
    (unlock emptyOwnerWorld (some "1") (some "bob")).2.seats "1" =
      some { state := .available, owner := none, expiresAt := none, _timer := none } := by
  refine ⟨Reachable.next initialWorld (.lock "1" "" 1000 1000) Reachable.init,
    by decide, by decide, by decide, by decide, by decide, by decide⟩

/-- C7 (atomicity of failures).  A failing `tryLockSeat` answers 404 or 409 and leaves the
whole store as it was.  A failing `confirmSeat` answers 404, 409, 400, 403 or 410; with any
of the first four the whole store is as it was; with 410 every seat but the named one is
unchanged and the named seat, which was Locked, is Available with null owner, deadline and
timer.  A refused `unlock` answers 400, 404 or 403 and leaves the whole store as it was. -/
theorem failures_atomic (w : World) :
    (∀ seatId userId now now2, (tryLockSeat w seatId userId now now2).1.success = false →
      (tryLockSeat w seatId userId now now2).2 = w ∧
      ((tryLockSeat w seatId userId now now2).1.code = 404 ∨
       (tryLockSeat w seatId userId now now2).1.code = 409)) ∧
    (∀ seatId userId now, (confirmSeat w seatId userId now).1.success = false →
      ((confirmSeat w seatId userId now).1.code = 404 ∨
       (confirmSeat w seatId userId now).1.code = 409 ∨
       (confirmSeat w seatId userId now).1.code = 400 ∨
       (confirmSeat w seatId userId now).1.code = 403 ∨
       (confirmSeat w seatId userId now).1.code = 410) ∧
      ((confirmSeat w seatId userId now).1.code ≠ 410 →
        (confirmSeat w seatId userId now).2 = w) ∧
      ((confirmSeat w seatId userId now).1.code = 410 →
        (∀ k, k ≠ seatId → (confirmSeat w seatId userId now).2.seats k = w.seats k) ∧
        (∃ s, w.seats seatId = some s ∧ s.state = .locked) ∧
        (confirmSeat w seatId userId now).2.seats seatId =
          some { state := .available, owner := none, expiresAt := none, _timer := none })) ∧
    (∀ seatId userId, (unlock w seatId userId).1.status ≠ 200 →
      (unlock w seatId userId).2 = w ∧
      ((unlock w seatId userId).1.status = 400 ∨ (unlock w seatId userId).1.status = 404 ∨
       (unlock w seatId userId).1.status = 403)) := by
  refine ⟨fun seatId userId now now2 h => tryLockSeat_failure w seatId userId now now2 h,
    fun seatId userId now h => ?_, fun seatId userId h => unlock_failure w seatId userId h⟩
  rcases confirmSeat_failure w seatId userId now h with ⟨hw, hc⟩ | ⟨hc, hw, s, hs, hl, -⟩
  · refine ⟨?_, fun _ => hw, fun h410 => ?_⟩
    · rcases hc with h | h | h | h <;> simp [h]
    · rcases hc with h | h | h | h <;> rw [h] at h410 <;> exact absurd h410 (by decide)
  · refine ⟨by simp [hc], fun hne => absurd hc hne, fun _ => ⟨fun k hk => ?_, ⟨s, hs, hl⟩, ?_⟩⟩
    · rw [hw, seats_releaseLockInternal]
      simp [hk]
    · rw [hw, seats_releaseLockInternal]
      simp [hs, releasedSeat, hl]

/-- C8 (legal transitions only).  For every store, every step (a `tryLockSeat`,
`confirmSeat` or `unlock` call with any arguments, or a timer-callback run at any time) and
every seat id: the id names a seat after the step exactly when it did before; the seat's
state after the step is its state before or is reached along Available to Locked, Locked to
Booked or Locked to Available; a Booked seat stays Booked with the same owner; and no
Available seat becomes Booked. -/
theorem legal_transitions (w : World) (st : Step) (k : String) :
    ((step w st).seats k = none ↔ w.seats k = none) ∧
    (∀ s s1, w.seats k = some s → (step w st).seats k = some s1 →
      (s1.state = s.state ∨
        (s.state = .available ∧ s1.state = .locked) ∨
        (s.state = .locked ∧ s1.state = .booked) ∨
        (s.state = .locked ∧ s1.state = .available)) ∧
      (s.state = .booked → s1.state = .booked ∧ s1.owner = s.owner) ∧
      ¬ (s.state = .available ∧ s1.state = .booked)) := by
  have same : ∀ s s1 : Seat, s1 = s →
      (s1.state = s.state ∨
        (s.state = .available ∧ s1.state = .locked) ∨
        (s.state = .locked ∧ s1.state = .booked) ∨
        (s.state = .locked ∧ s1.state = .available)) ∧
      (s.state = .booked → s1.state = .booked ∧ s1.owner = s.owner) ∧
      ¬ (s.state = .available ∧ s1.state = .booked) := by
    intro s s1 h
    subst h
    refine ⟨Or.inl rfl, fun h => ⟨h, rfl⟩, ?_⟩
    rintro ⟨h1, h2⟩
    rw [h1] at h2
    cases h2
  cases st with
  | lock seatId userId now now2 =>
    rcases tryLockSeat_seats w seatId userId now now2 k with h | ⟨-, s0, hs0, hb, h⟩
    · simp only [step, h, true_and]
      intro s s1 hs hs1
      exact same s s1 (by rw [hs] at hs1; cases hs1; rfl)
    · simp only [step, h, hs0]
      refine ⟨by simp, ?_⟩
      intro s s1 hs hs1
      obtain rfl : s0 = s := by simpa using hs
      cases hs1
      cases hst : s0.state with
      | available => simp
      | locked => simp
      | booked => exact absurd hst hb
  | confirm seatId userId now =>
    rcases confirmSeat_seats w seatId userId now k with h | ⟨-, s0, hs0, hl, ho, h | h⟩
    · simp only [step, h, true_and]
      intro s s1 hs hs1
      exact same s s1 (by rw [hs] at hs1; cases hs1; rfl)
    · simp only [step, h, hs0]
      refine ⟨by simp, ?_⟩
      intro s s1 hs hs1
      obtain rfl : s0 = s := by simpa using hs
      cases hs1
      simp [hl]
    · simp only [step, h, hs0]
      refine ⟨by simp, ?_⟩
      intro s s1 hs hs1
      obtain rfl : s0 = s := by simpa using hs
      cases hs1
      simp [hl]
  | unlock seatId userId =>
    rcases unlock_seats w seatId userId k with h | h
    · simp only [step, h, true_and]
      intro s s1 hs hs1
      exact same s s1 (by rw [hs] at hs1; cases hs1; rfl)
    · simp only [step, h]
      refine ⟨by simp, ?_⟩
      intro s s1 hs hs1
      rw [hs] at hs1
      simp only [Option.map_some', Option.some.injEq] at hs1
      subst hs1
      unfold releasedSeat
      cases hst : s.state <;> simp
  | expire seatId now =>
    rcases expiryCallback_seats w seatId now k with h | ⟨-, s0, e, hs0, hl, -, -, -, h⟩
    · simp only [step, h, true_and]
      intro s s1 hs hs1
      exact same s s1 (by rw [hs] at hs1; cases hs1; rfl)
    · simp only [step, h, hs0]
      refine ⟨by simp, ?_⟩
      intro s s1 hs hs1
      obtain rfl : s0 = s := by simpa using hs
      cases hs1
      simp [hl]

/-- C9 (idempotence of unlock), amended.  For every existing seat named by a non-empty seat
id, in any state, and every caller whose first `unlock` is answered with 200: a second
`unlock` by the same caller right after is answered with 200 too, and leaves the whole store
(every seat and the timer queue) exactly as the first call left it. -/
theorem unlock_idempotent (w : World) (id : String) (userId : Option String) (s : Seat)
    (hid : id ≠ "") (hs : w.seats id = some s)
    (hfirst : (unlock w (some id) userId).1.status = 200) :
    (unlock (unlock w (some id) userId).2 (some id) userId).1.status = 200 ∧
    (unlock (unlock w (some id) userId).2 (some id) userId).2 =
      (unlock w (some id) userId).2 := by
  have hf : ¬ unlockForbidden s.owner userId := by
    intro hf
    rw [unlock_forbidden w id userId s hid hs hf] at hfirst
    simp at hfirst
  rw [unlock_allowed w id userId s hid hs hf]
  have hs1 : (releaseLockInternal w id).seats id = some (releasedSeat s) := by
    simp [seats_releaseLockInternal, hs]
  have hf1 : ¬ unlockForbidden (releasedSeat s).owner userId := by
    unfold releasedSeat
    split
    · simp [unlockForbidden, truthyStr]
    · exact hf
  rw [unlock_allowed _ id userId _ hid hs1 hf1]
  exact ⟨rfl, releaseLockInternal_idle _ id _ hs1 (releasedSeat_idle s).1
    (releasedSeat_idle s).2⟩

/-- Witness for C9: alice holds seat `"1"` and unlocks it twice. -/
theorem unlock_idempotent_witness :
    (unlock aliceLockedWorld (some "1") (some "alice")).1.status = 200 ∧
    (unlock (unlock aliceLockedWorld (some "1") (some "alice")).2 (some "1")
      (some "alice")).1.status = 200 ∧
    (unlock (unlock aliceLockedWorld (some "1") (some "alice")).2 (some "1")
      (some "alice")).2 = (unlock aliceLockedWorld (some "1") (some "alice")).2 :=
  ⟨by decide,
    unlock_idempotent aliceLockedWorld "1" (some "alice") _ (by decide) aliceLockedWorld_seat
      (by decide)⟩

/-- Counterexample to C9 as stated: alice holds seat `"1"`; `unlock` by bob, called twice
in a row, is answered 403 both times, not with success. -/
theorem unlock_twice_forbidden :
    aliceLockedWorld.seats "1" =
      some { state := .locked, owner := some "alice", expiresAt := some 61000,
             _timer := some 0 } ∧
    (unlock aliceLockedWorld (some "1") (some "bob")).1.status = 403 ∧
    (unlock (unlock aliceLockedWorld (some "1") (some "bob")).2 (some "1")
      (some "bob")).1.status = 403 := by
  refine ⟨by decide, by decide, by decide⟩

/-- C10 (the expiry callback is safe to fire late, early or twice).  For every store and
firing time `now`, the timer callback of a seat touches no other seat and changes the store
only if its seat is Locked with a deadline at or before `now`.  In every store reachable
from the initial one, a seat that is Locked with a deadline at or before `now` becomes
Available with null owner, deadline and timer handle.  When the seat is Available, Booked,
Locked with a deadline after `now`, or missing, the run changes nothing.  After a
successful `tryLockSeat` stamped at `now2` the installed timer is pending with delay 60010,
and a run of the callback at `now2 + 60010`, or at any time from the deadline
`now2 + 60000` on, leaves the seat Available. -/
theorem expiryCallback_effect (w : World) (seatId : String) (now : Nat) :
    (∀ k, k ≠ seatId → (expiryCallback w seatId now).seats k = w.seats k) ∧
    (expiryCallback w seatId now ≠ w →
      ∃ s e, w.seats seatId = some s ∧ s.state = .locked ∧ s.expiresAt = some e ∧ e ≤ now) ∧
    (Reachable w →
      ∀ s e, w.seats seatId = some s → s.state = .locked → s.expiresAt = some e → e ≤ now →
      (expiryCallback w seatId now).seats seatId =
        some { state := .available, owner := none, expiresAt := none, _timer := none }) ∧
    (∀ s, w.seats seatId = some s →
      (s.state = .available ∨ s.state = .booked ∨
        (s.state = .locked ∧ ∃ e, s.expiresAt = some e ∧ now < e)) →
      expiryCallback w seatId now = w) ∧
    (w.seats seatId = none → expiryCallback w seatId now = w) ∧
    (∀ userId t t2, (tryLockSeat w seatId userId t t2).1.success = true →
      ({ id := w.nextTimer, seatId := seatId, delay := 60010 } : Timer) ∈
        (tryLockSeat w seatId userId t t2).2.timers ∧
      (expiryCallback (tryLockSeat w seatId userId t t2).2 seatId (t2 + 60010)).seats seatId =
        some { state := .available, owner := none, expiresAt := none, _timer := none } ∧
      ∀ fire, t2 + 60000 ≤ fire →
        (expiryCallback (tryLockSeat w seatId userId t t2).2 seatId fire).seats seatId =
          some { state := .available, owner := none, expiresAt := none, _timer := none }) := by
  refine ⟨fun k hk => ?_, fun hne => ?_, fun hreach s e hs hl he hle => ?_, fun s hs hc => ?_,
    fun hs => ?_, fun userId t t2 hsucc => ?_⟩
  · rcases expiryCallback_seats w seatId now k with h | ⟨h, -⟩
    · exact h
    · exact absurd h hk
  · by_contra hno
    apply hne
    apply expiryCallback_idle
    rintro s hs ⟨hl, e, he, -, hle⟩
    exact hno ⟨s, e, hs, hl, he, hle⟩
  · obtain ⟨e1, he1, hge⟩ := reachable_deadline w hreach seatId s hs hl
    rw [he] at he1
    cases he1
    exact expiryCallback_due w seatId now s e hs hl he (by omega) hle
  · apply expiryCallback_idle
    rintro s1 hs1 ⟨hl, e, he, -, hle⟩
    rw [hs] at hs1
    cases hs1
    rcases hc with h | h | ⟨-, e1, he1, hlt⟩
    · rw [hl] at h; cases h
    · rw [hl] at h; cases h
    · rw [he] at he1
      cases he1
      omega
  · apply expiryCallback_idle
    intro s hs1
    rw [hs] at hs1
    cases hs1
  · obtain ⟨s, hs, hb, hf⟩ := tryLockSeat_success_pre w seatId userId t t2 hsucc
    have hseat := (tryLockSeat_free w seatId userId t t2 s hs hb hf).2 seatId
    simp only [if_true, LOCK_DURATION_MS] at hseat
    refine ⟨tryLockSeat_timer w seatId userId t t2 s hs hb hf, ?_, fun fire hfire => ?_⟩
    · exact expiryCallback_due _ seatId _ _ (t2 + 60000) hseat rfl rfl (by omega) (by omega)
    · exact expiryCallback_due _ seatId _ _ (t2 + 60000) hseat rfl rfl (by omega) hfire

/-- Witness for C10: alice locks seat `"1"` at 1000 and leaves it; the callback runs at
61010. -/
theorem expiryCallback_effect_witness :
    Reachable aliceLockedWorld ∧
    (expiryCallback aliceLockedWorld "1" 61010).seats "1" =
      some { state := .available, owner := none, expiresAt := none, _timer := none } :=
  ⟨aliceLockedWorld_reachable,
    (expiryCallback_effect aliceLockedWorld "1" 61010).2.2.1 aliceLockedWorld_reachable _
      61000 aliceLockedWorld_seat rfl rfl (by decide)⟩

end TicketBooking
